import Mathlib

/-!
Verification of the heilion sidecar services against their specification.

The definitions below are a shallow embedding of the Python sources:

* `src/wake-word-sidecar/wake_service.py` — the wake-word broadcast loop
  (`WakeWordService`): client registry and fan-out (`broadcast`,
  `broadcast_audio`, `register_client`), the detection step
  (`detect_wake_word`), and the capture-and-detect loop (`audio_loop`).
* `src/hubert-llama-sidecar/hubert_llama_service.py` — the request/reply
  message handler (`handle_client`).

External collaborators (the openWakeWord model, pyaudio capture, websocket
transport, the HuBERT/Llama models and the filesystem) are modelled as
parameters: the classifier's output is a finite label-to-confidence mapping,
a send attempt has an explicit outcome, and one loop iteration is driven by
an explicit event (a captured frame with its wall-clock time, or a raised
transient error).  Time is modelled by ℚ, confidences by ℚ.
-/

namespace WakeService

/-- The twelve persona identifiers, in source order (wake_service.py lines
26-29). -/
def PERSONAS : List String :=
  ["Aries", "Taurus", "Gemini", "Cancer", "Leo", "Virgo",
   "Libra", "Scorpio", "Sagittarius", "Capricorn", "Aquarius", "Pisces"]

/-- The wake phrases: the list comprehension prefixing each persona with
the word Hey (wake_service.py line 31). -/
def WAKE_PHRASES : List String := PERSONAS.map (fun persona => "Hey " ++ persona)

/-- Python `str.lower()`.  The strings it is applied to here (the wake
phrases) are ASCII, where `str.lower()` lowercases character by
character, which is `Char.toLower`. -/
def pyLower (s : String) : String := String.mk (s.data.map Char.toLower)

/-- Python `str.replace(old, new)` for a single-character pattern: every
occurrence of the character `a` is replaced by `b`. -/
def replaceChar (s : String) (a b : Char) : String :=
  String.mk (s.data.map (fun c => if c = a then b else c))

/-- The space and underscore characters (U+0020 and U+005F). -/
def spaceChar : Char := Char.ofNat 32

/-- See `spaceChar`. -/
def underscoreChar : Char := Char.ofNat 95

/-- The key the detection step looks up in the model's prediction mapping
(wake_service.py line 96): lowercase the phrase, then replace each space
with an underscore. -/
def phraseKey (phrase : String) : String :=
  replaceChar (pyLower phrase) spaceChar underscoreChar

/-- A model prediction: a finite mapping from output keys to confidences,
as returned by `self.model.predict` (an external collaborator). -/
def Prediction : Type := List (String × ℚ)

/-- Python `prediction.get(key, 0)` — dict lookup with default 0 (wake_service.py
line 96); the dict is modelled as an association list. -/
def predGet (prediction : Prediction) (key : String) : ℚ :=
  match prediction with
  | [] => 0
  | (k, v) :: rest => if key = k then v else predGet rest key

/-- The fixed confidence threshold: the literal `0.5` at wake_service.py
line 96. -/
def confidenceThreshold : ℚ := 0.5

/-- The scan `for i, phrase in enumerate(WAKE_PHRASES): if
prediction.get(...) > 0.5: return PERSONAS[i]` (wake_service.py lines
93-98), expressed over the paired list `PERSONAS.zip WAKE_PHRASES` (the
two lists have equal length, and `WAKE_PHRASES` is pointwise derived from
`PERSONAS`, so pairing is the same as indexing both by `i`). -/
def scanPhrases (prediction : Prediction) : List (String × String) → Option String
  | [] => none
  | (persona, phrase) :: rest =>
      if confidenceThreshold < predGet prediction (phraseKey phrase) then some persona
      else scanPhrases prediction rest

/-- Function `detect_wake_word` (wake_service.py lines 80-103).

* `modelLoaded` models `self.model` being non-`None`; `owwAvailable` models
  `self.oww_available`.  `if not self.model or not self.oww_available:
  return None`.
* `inference` is the outcome of the `try` body up to `self.model.predict`:
  `none` models an exception raised while decoding the buffer or running
  inference (caught at lines 101-103, returning `None`); `some prediction`
  is the returned mapping.
* On a prediction the phrases are scanned in order and the first one whose
  key has confidence strictly above 0.5 yields its persona; otherwise
  `None`. -/
def detect_wake_word (modelLoaded owwAvailable : Bool)
    (inference : Option Prediction) : Option String :=
  if !modelLoaded || !owwAvailable then none
  else
    match inference with
    | none => none
    | some prediction => scanPhrases prediction (PERSONAS.zip WAKE_PHRASES)

/-- The cooldown constant: `cooldown = 3.0` (wake_service.py line 132). -/
def cooldown : ℚ := 3.0

/-- A trigger broadcast emitted by the loop.  The wire message carries a
constant field `triggered = True` plus the persona (lines 150-153);
`time` records the `time.time()` value at which it was accepted (model
bookkeeping for the cooldown invariants — it is not a wire field). -/
structure Trigger where
  persona : String
  time : ℚ
deriving DecidableEq, Repr

/-- One iteration's input to the capture-and-detect loop:

* `readError` — `self.stream.read` (or anything else in the iteration
  body) raised; caught at wake_service.py lines 157-159, the loop sleeps
  briefly and continues.
* `frame inference t` — a chunk was read; `inference` is the detector
  outcome for it (see `detect_wake_word`) and `t` is the value
  `time.time()` would return in this iteration. -/
inductive FrameEvent where
  | readError
  | frame (inference : Option Prediction) (t : ℚ)

/-- One iteration of the `while self.running` body (wake_service.py lines
134-159), as a function of the current `last_trigger_time`.  Returns the
updated `last_trigger_time` and the trigger broadcast, if any.

`if persona:` on a Python `Optional[str]` is true exactly when the value
is a non-empty string, hence the explicit emptiness test.  The
fire-and-forget raw-audio forwarding (line 141) does not touch
`last_trigger_time` nor emit trigger messages and is not modelled here. -/
def loopStep (modelLoaded owwAvailable : Bool) (last : ℚ) :
    FrameEvent → ℚ × Option Trigger
  | .readError => (last, none)
  | .frame inference t =>
      match detect_wake_word modelLoaded owwAvailable inference with
      | none => (last, none)
      | some persona =>
          if persona = "" then (last, none)
          else if cooldown < t - last then (t, some { persona := persona, time := t })
          else (last, none)

/-- The capture-and-detect loop (wake_service.py lines 126-159) run over a
finite list of iteration inputs, from a given `last_trigger_time`.
Returns the final `last_trigger_time` and the list of trigger broadcasts
in order. -/
def audio_loop (modelLoaded owwAvailable : Bool) (last : ℚ) :
    List FrameEvent → ℚ × List Trigger
  | [] => (last, [])
  | e :: es =>
      let step := loopStep modelLoaded owwAvailable last e
      let rest := audio_loop modelLoaded owwAvailable step.1 es
      (rest.1, step.2.toList ++ rest.2)

/-- The loop as started by `audio_loop`'s prologue:
`last_trigger_time = 0` (wake_service.py line 131). -/
def audio_loop_from_start (modelLoaded owwAvailable : Bool)
    (events : List FrameEvent) : ℚ × List Trigger :=
  audio_loop modelLoaded owwAvailable 0 events

/-! ### Connection registry and fan-out

Clients are identified by an opaque handle, modelled as ℕ.  The registry
`self.clients` is a Python `set`; it is modelled as a duplicate-free list.
The outcome of one `await client.send(...)` is supplied by the transport,
modelled as a function from the client handle to an outcome. -/

/-- Outcome of `await client.send(json.dumps(message))` in `broadcast`
(wake_service.py lines 74-77): either it succeeds or it raises
`websockets.exceptions.ConnectionClosed` (the only exception that code
catches). -/
inductive TextSendOutcome where
  | ok
  | connectionClosed
deriving DecidableEq, Repr

/-- Outcome of `await client.send(audio_data)` in `broadcast_audio`
(wake_service.py lines 166-169): success, `ConnectionClosed`, or
`TypeError` (both exception types are caught there). -/
inductive AudioSendOutcome where
  | ok
  | connectionClosed
  | typeError
deriving DecidableEq, Repr

/-- Result of one fan-out call: the send attempts made (in iteration
order), the clients to which the message was delivered, and the registry
`self.clients` after the call. -/
structure Fanout where
  attempts : List ℕ
  delivered : List ℕ
  registryAfter : List ℕ
deriving DecidableEq, Repr

/-- The `for client in self.clients: try: await client.send(...)` loop of
`broadcast` (wake_service.py lines 73-77).  Returns the attempts made, the
successful deliveries, and the `disconnected` set accumulated by the
`except` branch. -/
def broadcastLoop (send : ℕ → TextSendOutcome) :
    List ℕ → List ℕ × List ℕ × List ℕ
  | [] => ([], [], [])
  | c :: cs =>
      let rest := broadcastLoop send cs
      match send c with
      | .ok => (c :: rest.1, c :: rest.2.1, rest.2.2)
      | .connectionClosed => (c :: rest.1, rest.2.1, c :: rest.2.2)

/-- Method `broadcast` (wake_service.py lines 70-78): the emptiness guard,
the send loop, then the batch removal `self.clients -= disconnected`. -/
def broadcast (clients : List ℕ) (send : ℕ → TextSendOutcome) : Fanout :=
  if clients.isEmpty then { attempts := [], delivered := [], registryAfter := clients }
  else
    let r := broadcastLoop send clients
    { attempts := r.1, delivered := r.2.1,
      registryAfter := clients.filter (fun c => decide (c ∉ r.2.2)) }

/-- The send loop of `broadcast_audio` (wake_service.py lines 164-169);
same shape as `broadcastLoop` but catching `(ConnectionClosed, TypeError)`. -/
def broadcastAudioLoop (send : ℕ → AudioSendOutcome) :
    List ℕ → List ℕ × List ℕ × List ℕ
  | [] => ([], [], [])
  | c :: cs =>
      let rest := broadcastAudioLoop send cs
      match send c with
      | .ok => (c :: rest.1, c :: rest.2.1, rest.2.2)
      | .connectionClosed => (c :: rest.1, rest.2.1, c :: rest.2.2)
      | .typeError => (c :: rest.1, rest.2.1, c :: rest.2.2)

/-- Method `broadcast_audio` (wake_service.py lines 161-170). -/
def broadcast_audio (clients : List ℕ) (send : ℕ → AudioSendOutcome) : Fanout :=
  if clients.isEmpty then { attempts := [], delivered := [], registryAfter := clients }
  else
    let r := broadcastAudioLoop send clients
    { attempts := r.1, delivered := r.2.1,
      registryAfter := clients.filter (fun c => decide (c ∉ r.2.2)) }

/-- An observable step of the registry's lifecycle, as driven by the
cooperatively-scheduled tasks of the service:

* `connect c` — `register_client` starts: `self.clients.add(websocket)`
  (wake_service.py line 62);
* `disconnect c` — `websocket.wait_closed()` returned and the `finally`
  block runs: `self.clients.remove(websocket)` (lines 64-67);
* `fanout send` — one `broadcast` call with the given transport outcomes
  (lines 70-78).

Each step is atomic here: the whole system is single-threaded and
cooperatively scheduled, and `broadcast` defers registry mutation until
after its iteration, so no step observes a partially-updated registry. -/
inductive RegistryEvent where
  | connect (c : ℕ)
  | disconnect (c : ℕ)
  | fanout (send : ℕ → TextSendOutcome)

/-- Apply one lifecycle step to the registry.  Returns the new registry and
the list of send attempts the step made (empty for connect/disconnect). -/
def registryStep (clients : List ℕ) : RegistryEvent → List ℕ × List ℕ
  | .connect c => (if c ∈ clients then clients else clients ++ [c], [])
  | .disconnect c => (clients.filter (fun x => decide (x ≠ c)), [])
  | .fanout send =>
      let f := broadcast clients send
      (f.registryAfter, f.attempts)

end WakeService

namespace HubertLlama

/-!
The request/reply endpoint of the HuBERT + Llama sidecar.

`HubertLlamaService.handle_client` (hubert_llama_service.py lines 264-325)
drains `async for message in websocket` and answers each inbound text with
exactly one reply.  The inbound text is modelled after `json.loads` and
the lookup of the type field have been applied:

* `malformed raw` — `json.loads(message)` raised `JSONDecodeError`;
* `ping`, `transcribe`, `loadModels` — the three recognised types, the
  audio path of `transcribe` possibly absent, hence `Option`;
* `unknown t` — any other value of the type field; `none` models a
  missing field, which the dict lookup reports as `None`.

The filesystem check `os.path.exists`, the transcription pipeline and
`load_models` are external collaborators supplied through `Env`. -/

/-- The dictionary `transcribe_and_understand` returns (lines 236-262):
either success with transcript and response, or failure with an error
string. -/
structure TranscribeOutcome where
  success : Bool
  transcript : String
  response : String
  error : String
deriving DecidableEq, Repr

/-- External collaborators of `handle_client`. -/
structure Env where
  fileExists : String → Bool
  transcribe : String → String → TranscribeOutcome
  loadModelsOk : Bool

/-- One inbound text on the socket, after `json.loads` and the lookup of
the type field (see the section comment). -/
inductive InMsg where
  | malformed (raw : String)
  | ping
  | transcribe (audioPath : Option String) (context : String)
  | loadModels
  | unknown (t : Option String)

/-- One reply sent back on the socket, abstracting the JSON envelope to
its type field and payload: `pong` is the pong reply; `errorReply e` is
an error-typed reply with error text `e`; `resultReply r` is a
result-typed reply spreading the transcription outcome; `modelsLoaded ok`
is the models-loaded reply with its success flag. -/
inductive Reply where
  | pong
  | errorReply (error : String)
  | resultReply (r : TranscribeOutcome)
  | modelsLoaded (success : Bool)
deriving DecidableEq, Repr

/-- Python `str(x)` of an `Optional[str]` as interpolated into the error
strings: `None` prints as `"None"`. -/
def pyStr (s : Option String) : String := s.getD "None"

/-- The body of the `async for` loop of `handle_client`
(hubert_llama_service.py lines 270-319): the reply sent for one inbound
message. -/
def handle_message (env : Env) : InMsg → Reply
  | .malformed _ => .errorReply "Invalid JSON"
  | .ping => .pong
  | .transcribe audioPath context =>
      -- `if not audio_path or not os.path.exists(audio_path)`: an absent
      -- (`None`) or empty path is falsy in Python, so it errors without
      -- consulting the filesystem.
      match audioPath with
      | none => .errorReply ("Audio file not found: " ++ pyStr none)
      | some p =>
          if p = "" || !env.fileExists p then
            .errorReply ("Audio file not found: " ++ p)
          else .resultReply (env.transcribe p context)
  | .loadModels => .modelsLoaded env.loadModelsOk
  | .unknown t => .errorReply ("Unknown message type: " ++ pyStr t)

/-- The message loop of `handle_client` over the whole inbound stream: each
message is answered in order, one reply per message, and the connection
stays open between messages (the loop only ends when the stream does). -/
def handle_client (env : Env) (msgs : List InMsg) : List Reply :=
  msgs.map (handle_message env)

end HubertLlama

namespace WakeService

/-! ### Helper lemmas -/

/-- The twelve lookup keys, computed: `phraseKey` of each wake phrase. -/
lemma phraseKey_eval :
    WAKE_PHRASES.map phraseKey =
      ["hey_aries", "hey_taurus", "hey_gemini", "hey_cancer", "hey_leo",
       "hey_virgo", "hey_libra", "hey_scorpio", "hey_sagittarius",
       "hey_capricorn", "hey_aquarius", "hey_pisces"] := rfl

lemma phraseKey_Aries : phraseKey "Hey Aries" = "hey_aries" := rfl

lemma phraseKey_Taurus : phraseKey "Hey Taurus" = "hey_taurus" := rfl

lemma phraseKey_Gemini : phraseKey "Hey Gemini" = "hey_gemini" := rfl

lemma phraseKey_Leo : phraseKey "Hey Leo" = "hey_leo" := rfl

lemma phraseKey_Virgo : phraseKey "Hey Virgo" = "hey_virgo" := rfl

/-- Unfolding of `detect_wake_word` with the model loaded and a prediction in hand,
with the lookup keys evaluated. -/
lemma detect_keys (p : Prediction) :
    detect_wake_word true true (some p) =
      if confidenceThreshold < predGet p "hey_aries" then some "Aries"
      else if confidenceThreshold < predGet p "hey_taurus" then some "Taurus"
      else if confidenceThreshold < predGet p "hey_gemini" then some "Gemini"
      else if confidenceThreshold < predGet p "hey_cancer" then some "Cancer"
      else if confidenceThreshold < predGet p "hey_leo" then some "Leo"
      else if confidenceThreshold < predGet p "hey_virgo" then some "Virgo"
      else if confidenceThreshold < predGet p "hey_libra" then some "Libra"
      else if confidenceThreshold < predGet p "hey_scorpio" then some "Scorpio"
      else if confidenceThreshold < predGet p "hey_sagittarius" then some "Sagittarius"
      else if confidenceThreshold < predGet p "hey_capricorn" then some "Capricorn"
      else if confidenceThreshold < predGet p "hey_aquarius" then some "Aquarius"
      else if confidenceThreshold < predGet p "hey_pisces" then some "Pisces"
      else none := rfl

/-- The scan reports a match exactly when some scanned phrase's key has
confidence strictly above the threshold. -/
lemma scanPhrases_isSome_iff (p : Prediction) (l : List (String × String)) :
    (scanPhrases p l).isSome = true ↔
      ∃ q ∈ l, confidenceThreshold < predGet p (phraseKey q.2) := by
  induction l with
  | nil => simp [scanPhrases]
  | cons q rest ih =>
      obtain ⟨persona, phrase⟩ := q
      by_cases h : confidenceThreshold < predGet p (phraseKey phrase)
      · simp [scanPhrases, h]
      · simp [scanPhrases, h, ih]

/-- Any persona the scan returns is the first component of a scanned pair. -/
lemma scanPhrases_mem (p : Prediction) (l : List (String × String)) (s : String)
    (h : scanPhrases p l = some s) : s ∈ l.map Prod.fst := by
  induction l with
  | nil => simp [scanPhrases] at h
  | cons q rest ih =>
      obtain ⟨persona, phrase⟩ := q
      by_cases hq : confidenceThreshold < predGet p (phraseKey phrase)
      · simp [scanPhrases, hq] at h
        simp [h]
      · simp [scanPhrases, hq] at h
        simpa using Or.inr (ih h)

/-- The scan returns the pivot of a split whose prefix is all below
threshold and whose pivot is above it. -/
lemma scanPhrases_first_match (p : Prediction) (pre post : List (String × String))
    (x : String × String)
    (hpre : ∀ q ∈ pre, predGet p (phraseKey q.2) ≤ confidenceThreshold)
    (hpos : confidenceThreshold < predGet p (phraseKey x.2)) :
    scanPhrases p (pre ++ x :: post) = some x.1 := by
  induction pre with
  | nil =>
      obtain ⟨persona, phrase⟩ := x
      simp [scanPhrases, hpos]
  | cons q rest ih =>
      obtain ⟨persona, phrase⟩ := q
      have hq : ¬ confidenceThreshold < predGet p (phraseKey phrase) := by
        simpa using not_lt.mpr (hpre ⟨persona, phrase⟩ (by simp))
      simpa [scanPhrases, hq] using ih (fun q hq => hpre q (by simp [hq]))

/-- Any persona the detection step returns is one of the twelve. -/
lemma detect_mem_PERSONAS (m o : Bool) (inf : Option Prediction) (s : String)
    (h : detect_wake_word m o inf = some s) : s ∈ PERSONAS := by
  unfold detect_wake_word at h
  by_cases hmo : (!m || !o) = true
  · simp [hmo] at h
  · simp [hmo] at h
    match inf, h with
    | some p, h =>
        have := scanPhrases_mem p (PERSONAS.zip WAKE_PHRASES) s h
        simpa [show (PERSONAS.zip WAKE_PHRASES).map Prod.fst = PERSONAS from rfl]
          using this

/-- The detection step never reports the empty string (relevant because
`if persona:` in the loop treats the empty string as no detection). -/
lemma detect_ne_empty (m o : Bool) (inf : Option Prediction) (s : String)
    (h : detect_wake_word m o inf = some s) : s ≠ "" := by
  intro hs
  subst hs
  exact absurd (detect_mem_PERSONAS m o inf "" h) (by decide)

/-- Detection of a raised/absent inference result is `none`, whatever the
flags. -/
lemma detect_none (m o : Bool) : detect_wake_word m o none = none := by
  unfold detect_wake_word
  by_cases hmo : (!m || !o) = true <;> simp [hmo]

/-- Unfolding of `audio_loop` on one iteration. -/
lemma audio_loop_cons (m o : Bool) (last : ℚ) (e : FrameEvent) (es : List FrameEvent) :
    audio_loop m o last (e :: es) =
      ((audio_loop m o (loopStep m o last e).1 es).1,
       (loopStep m o last e).2.toList ++ (audio_loop m o (loopStep m o last e).1 es).2) :=
  rfl

/-- An iteration whose frame produced no positive detection leaves the
state unchanged and broadcasts nothing. -/
lemma loopStep_no_match (m o : Bool) (last : ℚ) (e : FrameEvent)
    (h : ∀ inf t, e = FrameEvent.frame inf t → detect_wake_word m o inf = none) :
    loopStep m o last e = (last, none) := by
  cases e with
  | readError => rfl
  | frame inf t => simp [loopStep, h inf t rfl]

/-- If no iteration produces a positive detection, the loop broadcasts
nothing and never moves `last_trigger_time`. -/
lemma audio_loop_no_match (m o : Bool) (last : ℚ) (es : List FrameEvent)
    (h : ∀ inf t, FrameEvent.frame inf t ∈ es → detect_wake_word m o inf = none) :
    audio_loop m o last es = (last, []) := by
  induction es generalizing last with
  | nil => rfl
  | cons e es ih =>
      have hstep : loopStep m o last e = (last, none) :=
        loopStep_no_match m o last e (fun inf t he => h inf t (he ▸ List.mem_cons_self e es))
      have hrest := ih last (fun inf t hmem => h inf t (List.mem_cons_of_mem e hmem))
      simp [audio_loop_cons, hstep, hrest]

/-- The times of the triggers the loop broadcasts form a chain above the
starting `last_trigger_time`, each link more than one cooldown later. -/
lemma audio_loop_chain (m o : Bool) (last : ℚ) (es : List FrameEvent) :
    List.Chain (fun a b : ℚ => a + cooldown < b) last
      (((audio_loop m o last es).2).map Trigger.time) := by
  induction es generalizing last with
  | nil => simp [audio_loop]
  | cons e es ih =>
      cases e with
      | readError => simpa [audio_loop_cons, loopStep] using ih last
      | frame inf t =>
          rcases hdet : detect_wake_word m o inf with _ | persona
          · simpa [audio_loop_cons, loopStep, hdet] using ih last
          · have hne : persona ≠ "" := detect_ne_empty m o inf persona hdet
            by_cases hcd : cooldown < t - last
            · have : last + cooldown < t := by linarith
              simpa [audio_loop_cons, loopStep, hdet, hne, hcd] using ⟨this, ih t⟩
            · simpa [audio_loop_cons, loopStep, hdet, hne, hcd] using ih last

/-- The trigger-gap relation is transitive (the cooldown is positive). -/
lemma trigger_gap_trans :
    Transitive (fun a b : ℚ => a + cooldown < b) := by
  intro a b c hab hbc
  have : (0:ℚ) < cooldown := by norm_num [cooldown]
  linarith

/-- The send loop attempts delivery to every client, in order. -/
lemma broadcastLoop_attempts (send : ℕ → TextSendOutcome) (l : List ℕ) :
    (broadcastLoop send l).1 = l := by
  induction l with
  | nil => rfl
  | cons c cs ih => cases h : send c <;> simp [broadcastLoop, h, ih]

/-- A client receives the message exactly when it is registered and its
send succeeds. -/
lemma broadcastLoop_delivered (send : ℕ → TextSendOutcome) (l : List ℕ) (x : ℕ) :
    x ∈ (broadcastLoop send l).2.1 ↔ x ∈ l ∧ send x = .ok := by
  induction l with
  | nil => simp [broadcastLoop]
  | cons c cs ih =>
      cases h : send c with
      | ok =>
          simp only [broadcastLoop, h, List.mem_cons, ih]
          constructor
          · rintro (rfl | ⟨hm, hx⟩)
            · exact ⟨Or.inl rfl, h⟩
            · exact ⟨Or.inr hm, hx⟩
          · rintro ⟨rfl | hm, hx⟩
            · exact Or.inl rfl
            · exact Or.inr ⟨hm, hx⟩
      | connectionClosed =>
          simp only [broadcastLoop, h, List.mem_cons, ih]
          constructor
          · rintro ⟨hm, hx⟩
            exact ⟨Or.inr hm, hx⟩
          · rintro ⟨rfl | hm, hx⟩
            · exact absurd h (by simp [hx])
            · exact ⟨hm, hx⟩

/-- The `disconnected` set collects exactly the registered clients whose
send raised `ConnectionClosed`. -/
lemma broadcastLoop_disc (send : ℕ → TextSendOutcome) (l : List ℕ) (x : ℕ) :
    x ∈ (broadcastLoop send l).2.2 ↔ x ∈ l ∧ send x = .connectionClosed := by
  induction l with
  | nil => simp [broadcastLoop]
  | cons c cs ih =>
      cases h : send c with
      | connectionClosed =>
          simp only [broadcastLoop, h, List.mem_cons, ih]
          constructor
          · rintro (rfl | ⟨hm, hx⟩)
            · exact ⟨Or.inl rfl, h⟩
            · exact ⟨Or.inr hm, hx⟩
          · rintro ⟨rfl | hm, hx⟩
            · exact Or.inl rfl
            · exact Or.inr ⟨hm, hx⟩
      | ok =>
          simp only [broadcastLoop, h, List.mem_cons, ih]
          constructor
          · rintro ⟨hm, hx⟩
            exact ⟨Or.inr hm, hx⟩
          · rintro ⟨rfl | hm, hx⟩
            · exact absurd h (by simp [hx])
            · exact ⟨hm, hx⟩

lemma broadcast_attempts (clients : List ℕ) (send : ℕ → TextSendOutcome) :
    (broadcast clients send).attempts = clients := by
  unfold broadcast
  by_cases h : clients.isEmpty
  · simp [h, List.isEmpty_iff.mp h]
  · simp [h, broadcastLoop_attempts]

lemma broadcast_delivered (clients : List ℕ) (send : ℕ → TextSendOutcome) (x : ℕ) :
    x ∈ (broadcast clients send).delivered ↔ x ∈ clients ∧ send x = .ok := by
  unfold broadcast
  by_cases h : clients.isEmpty
  · simp [h, List.isEmpty_iff.mp h]
  · simp [h, broadcastLoop_delivered]

/-- After `broadcast`, the registry is the old registry minus exactly the
clients whose send failed: batch removal after the iteration. -/
lemma broadcast_registryAfter (clients : List ℕ) (send : ℕ → TextSendOutcome) :
    (broadcast clients send).registryAfter =
      clients.filter (fun x => decide (send x ≠ .connectionClosed)) := by
  unfold broadcast
  by_cases h : clients.isEmpty
  · simp [h, List.isEmpty_iff.mp h]
  · simp only [h, Bool.false_eq_true, if_false]
    apply List.filter_congr
    intro x hx
    simp [broadcastLoop_disc, hx]

/-- Counterpart of `broadcastLoop_attempts` for the binary fan-out. -/
lemma broadcastAudioLoop_attempts (send : ℕ → AudioSendOutcome) (l : List ℕ) :
    (broadcastAudioLoop send l).1 = l := by
  induction l with
  | nil => rfl
  | cons c cs ih => cases h : send c <;> simp [broadcastAudioLoop, h, ih]

lemma broadcastAudioLoop_delivered (send : ℕ → AudioSendOutcome) (l : List ℕ) (x : ℕ) :
    x ∈ (broadcastAudioLoop send l).2.1 ↔ x ∈ l ∧ send x = .ok := by
  induction l with
  | nil => simp [broadcastAudioLoop]
  | cons c cs ih =>
      cases h : send c with
      | ok =>
          simp only [broadcastAudioLoop, h, List.mem_cons, ih]
          constructor
          · rintro (rfl | ⟨hm, hx⟩)
            · exact ⟨Or.inl rfl, h⟩
            · exact ⟨Or.inr hm, hx⟩
          · rintro ⟨rfl | hm, hx⟩
            · exact Or.inl rfl
            · exact Or.inr ⟨hm, hx⟩
      | connectionClosed =>
          simp only [broadcastAudioLoop, h, List.mem_cons, ih]
          constructor
          · rintro ⟨hm, hx⟩
            exact ⟨Or.inr hm, hx⟩
          · rintro ⟨rfl | hm, hx⟩
            · exact absurd h (by simp [hx])
            · exact ⟨hm, hx⟩
      | typeError =>
          simp only [broadcastAudioLoop, h, List.mem_cons, ih]
          constructor
          · rintro ⟨hm, hx⟩
            exact ⟨Or.inr hm, hx⟩
          · rintro ⟨rfl | hm, hx⟩
            · exact absurd h (by simp [hx])
            · exact ⟨hm, hx⟩

lemma broadcastAudioLoop_disc (send : ℕ → AudioSendOutcome) (l : List ℕ) (x : ℕ) :
    x ∈ (broadcastAudioLoop send l).2.2 ↔ x ∈ l ∧ send x ≠ .ok := by
  induction l with
  | nil => simp [broadcastAudioLoop]
  | cons c cs ih =>
      cases h : send c with
      | ok =>
          simp only [broadcastAudioLoop, h, List.mem_cons, ih]
          constructor
          · rintro ⟨hm, hx⟩
            exact ⟨Or.inr hm, hx⟩
          · rintro ⟨rfl | hm, hx⟩
            · exact absurd h hx
            · exact ⟨hm, hx⟩
      | connectionClosed =>
          simp only [broadcastAudioLoop, h, List.mem_cons, ih]
          constructor
          · rintro (rfl | ⟨hm, hx⟩)
            · exact ⟨Or.inl rfl, by simp [h]⟩
            · exact ⟨Or.inr hm, hx⟩
          · rintro ⟨rfl | hm, hx⟩
            · exact Or.inl rfl
            · exact Or.inr ⟨hm, hx⟩
      | typeError =>
          simp only [broadcastAudioLoop, h, List.mem_cons, ih]
          constructor
          · rintro (rfl | ⟨hm, hx⟩)
            · exact ⟨Or.inl rfl, by simp [h]⟩
            · exact ⟨Or.inr hm, hx⟩
          · rintro ⟨rfl | hm, hx⟩
            · exact Or.inl rfl
            · exact Or.inr ⟨hm, hx⟩

lemma broadcast_audio_attempts (clients : List ℕ) (send : ℕ → AudioSendOutcome) :
    (broadcast_audio clients send).attempts = clients := by
  unfold broadcast_audio
  by_cases h : clients.isEmpty
  · simp [h, List.isEmpty_iff.mp h]
  · simp [h, broadcastAudioLoop_attempts]

lemma broadcast_audio_delivered (clients : List ℕ) (send : ℕ → AudioSendOutcome) (x : ℕ) :
    x ∈ (broadcast_audio clients send).delivered ↔ x ∈ clients ∧ send x = .ok := by
  unfold broadcast_audio
  by_cases h : clients.isEmpty
  · simp [h, List.isEmpty_iff.mp h]
  · simp [h, broadcastAudioLoop_delivered]

lemma broadcast_audio_registryAfter (clients : List ℕ) (send : ℕ → AudioSendOutcome) :
    (broadcast_audio clients send).registryAfter =
      clients.filter (fun x => decide (send x = .ok)) := by
  unfold broadcast_audio
  by_cases h : clients.isEmpty
  · simp [h, List.isEmpty_iff.mp h]
  · simp only [h, Bool.false_eq_true, if_false]
    apply List.filter_congr
    intro x hx
    simp [broadcastAudioLoop_disc, hx]

/-! ### Claim theorems -/

/-- C1: For two positive detections, the first of which is accepted
(its time exceeds the last trigger time by more than the cooldown): if
the second comes less than 3.0 s after the first only the first is
broadcast and `last_trigger_time` stays at the first's time, and if it
comes more than 3.0 s after, both are broadcast and `last_trigger_time`
moves to the second's time — the timestamp is updated only on accepted
triggers. -/
theorem cooldown_pair_broadcasts (m o : Bool) (last t1 t2 : ℚ)
    (inf1 inf2 : Option Prediction) (p1 p2 : String)
    (h1 : detect_wake_word m o inf1 = some p1)
    (h2 : detect_wake_word m o inf2 = some p2)
    (hacc : cooldown < t1 - last) :
    (t2 - t1 < cooldown →
      audio_loop m o last [FrameEvent.frame inf1 t1, FrameEvent.frame inf2 t2]
        = (t1, [{ persona := p1, time := t1 }])) ∧
    (cooldown < t2 - t1 →
      audio_loop m o last [FrameEvent.frame inf1 t1, FrameEvent.frame inf2 t2]
        = (t2, [{ persona := p1, time := t1 }, { persona := p2, time := t2 }])) := by
  have hp1 : p1 ≠ "" := detect_ne_empty m o inf1 p1 h1
  have hp2 : p2 ≠ "" := detect_ne_empty m o inf2 p2 h2
  constructor
  · intro hlt
    have hno : ¬ cooldown < t2 - t1 := by linarith
    simp [audio_loop, audio_loop_cons, loopStep, h1, h2, hp1, hp2, hacc, hno]
  · intro hgt
    simp [audio_loop, audio_loop_cons, loopStep, h1, h2, hp1, hp2, hacc, hgt]

/-- Witness for C1: Leo detected at t=10 is accepted; a second detection
at t=11 (gap 1 s < 3.0 s) is suppressed; a second detection at t=14
(gap 4 s > 3.0 s) is broadcast. -/
theorem cooldown_pair_broadcasts_witness :
    detect_wake_word true true (some [("hey_leo", (0.9:ℚ))]) = some "Leo" ∧
    cooldown < (10:ℚ) - 0 ∧ (11:ℚ) - 10 < cooldown ∧ cooldown < (14:ℚ) - 10 ∧
    audio_loop true true 0
      [FrameEvent.frame (some [("hey_leo", (0.9:ℚ))]) 10,
       FrameEvent.frame (some [("hey_leo", (0.9:ℚ))]) 11]
      = (10, [{ persona := "Leo", time := 10 }]) ∧
    audio_loop true true 0
      [FrameEvent.frame (some [("hey_leo", (0.9:ℚ))]) 10,
       FrameEvent.frame (some [("hey_leo", (0.9:ℚ))]) 14]
      = (14, [{ persona := "Leo", time := 10 }, { persona := "Leo", time := 14 }]) := by
  have hd : detect_wake_word true true (some [("hey_leo", (0.9:ℚ))]) = some "Leo" := by
    simp [detect_keys, predGet, confidenceThreshold]
    norm_num
  refine ⟨hd, by norm_num [cooldown], by norm_num [cooldown], by norm_num [cooldown], ?_, ?_⟩
  · exact (cooldown_pair_broadcasts true true 0 10 11 _ _ "Leo" "Leo" hd hd
      (by norm_num [cooldown])).1 (by norm_num [cooldown])
  · exact (cooldown_pair_broadcasts true true 0 10 14 _ _ "Leo" "Leo" hd hd
      (by norm_num [cooldown])).2 (by norm_num [cooldown])

/-- C2: In `broadcast` (and in `broadcast_audio`), every registered
connection gets a delivery attempt; a connection whose send succeeds
receives the message no matter how the other connections' sends fail;
and the registry afterwards is the old registry minus exactly the failed
connections, removed in one batch after the iteration. -/
theorem broadcast_failure_isolation (clients : List ℕ)
    (send : ℕ → TextSendOutcome) (asend : ℕ → AudioSendOutcome) (c : ℕ)
    (hc : c ∈ clients) :
    c ∈ (broadcast clients send).attempts ∧
    (send c = .ok → c ∈ (broadcast clients send).delivered) ∧
    (broadcast clients send).registryAfter
      = clients.filter (fun x => decide (send x ≠ TextSendOutcome.connectionClosed)) ∧
    c ∈ (broadcast_audio clients asend).attempts ∧
    (asend c = .ok → c ∈ (broadcast_audio clients asend).delivered) ∧
    (broadcast_audio clients asend).registryAfter
      = clients.filter (fun x => decide (asend x = AudioSendOutcome.ok)) := by
  refine ⟨?_, ?_, broadcast_registryAfter clients send, ?_, ?_,
    broadcast_audio_registryAfter clients asend⟩
  · rw [broadcast_attempts]; exact hc
  · intro hok; exact (broadcast_delivered clients send c).mpr ⟨hc, hok⟩
  · rw [broadcast_audio_attempts]; exact hc
  · intro hok; exact (broadcast_audio_delivered clients asend c).mpr ⟨hc, hok⟩

/-- Witness for C2: in a three-client registry where client 2's send
fails, client 3 is still attempted and delivered, and only client 2 is
removed, after the iteration, from the registry. -/
theorem broadcast_failure_isolation_witness :
    (3 ∈ ([1, 2, 3] : List ℕ)) ∧
    3 ∈ (broadcast [1, 2, 3]
      (fun n => if n = 2 then TextSendOutcome.connectionClosed else .ok)).delivered ∧
    (broadcast [1, 2, 3]
      (fun n => if n = 2 then TextSendOutcome.connectionClosed else .ok)).registryAfter
      = [1, 3] ∧
    3 ∈ (broadcast_audio [1, 2, 3]
      (fun n => if n = 2 then AudioSendOutcome.typeError else .ok)).delivered ∧
    (broadcast_audio [1, 2, 3]
      (fun n => if n = 2 then AudioSendOutcome.typeError else .ok)).registryAfter
      = [1, 3] := by
  have h := broadcast_failure_isolation [1, 2, 3]
    (fun n => if n = 2 then TextSendOutcome.connectionClosed else .ok)
    (fun n => if n = 2 then AudioSendOutcome.typeError else .ok) 3 (by decide)
  refine ⟨by decide, h.2.1 (by decide), ?_, h.2.2.2.2.1 (by decide), ?_⟩
  · rw [h.2.2.1]; decide
  · rw [h.2.2.2.2.2]; decide

/-- C3: In every execution of the capture-and-detect loop (started with
`last_trigger_time = 0`), any two broadcast triggers — whatever their
labels — are separated by strictly more than one cooldown window: the
cooldown is global, so an accepted trigger suppresses every detection,
for any label, inside its window. -/
theorem cooldown_global_pairwise (m o : Bool) (es : List FrameEvent) :
    List.Pairwise (fun a b : Trigger => cooldown < b.time - a.time)
      (audio_loop_from_start m o es).2 := by
  haveI : IsTrans ℚ (fun a b : ℚ => a + cooldown < b) := ⟨trigger_gap_trans⟩
  have hchain := audio_loop_chain m o 0 es
  have hpair :
      List.Pairwise (fun a b : ℚ => a + cooldown < b)
        (((audio_loop_from_start m o es).2).map Trigger.time) :=
    (List.chain_iff_pairwise.mp hchain).of_cons
  have hp := (List.pairwise_map).mp hpair
  exact hp.imp fun h => by linarith

/-- C6: A run of the loop in which the detector never reports a positive
detection broadcasts no trigger. -/
theorem no_positive_no_broadcast (m o : Bool) (last : ℚ) (es : List FrameEvent)
    (h : ∀ inf t, FrameEvent.frame inf t ∈ es → detect_wake_word m o inf = none) :
    (audio_loop m o last es).2 = [] := by
  rw [audio_loop_no_match m o last es h]

/-- Witness for C6: a read error, a frame whose classification raised,
and a frame whose prediction is below threshold produce no broadcasts. -/
theorem no_positive_no_broadcast_witness :
    (∀ inf t, FrameEvent.frame inf t ∈
        [FrameEvent.readError, FrameEvent.frame none 5,
         FrameEvent.frame (some [("hey_leo", (0.2:ℚ))]) 6] →
      detect_wake_word true true inf = none) ∧
    (audio_loop true true 0
        [FrameEvent.readError, FrameEvent.frame none 5,
         FrameEvent.frame (some [("hey_leo", (0.2:ℚ))]) 6]).2 = [] := by
  have h : ∀ inf t, FrameEvent.frame inf t ∈
      [FrameEvent.readError, FrameEvent.frame none 5,
       FrameEvent.frame (some [("hey_leo", (0.2:ℚ))]) 6] →
      detect_wake_word true true inf = none := by
    intro inf t hmem
    simp only [List.mem_cons, List.not_mem_nil, or_false] at hmem
    rcases hmem with hmem | hmem | hmem
    · exact absurd hmem (by simp)
    · obtain ⟨rfl, -⟩ := FrameEvent.frame.inj hmem
      exact detect_none true true
    · obtain ⟨rfl, -⟩ := FrameEvent.frame.inj hmem
      simp [detect_keys, predGet, confidenceThreshold]
      norm_num
  exact ⟨h, no_positive_no_broadcast true true 0 _ h⟩

/-- C9: A transient error in one iteration — the frame read raising, or
the classification raising (caught inside `detect_wake_word`) — does not
terminate the loop: the rest of the run proceeds exactly as if the
failed iteration had not happened, with the same `last_trigger_time`. -/
theorem transient_error_loop_continues (m o : Bool) (last : ℚ) (es : List FrameEvent) :
    audio_loop m o last (FrameEvent.readError :: es) = audio_loop m o last es ∧
    ∀ t, audio_loop m o last (FrameEvent.frame none t :: es) = audio_loop m o last es := by
  constructor
  · rfl
  · intro t
    simp [audio_loop_cons, loopStep, detect_none]

/-- C10: The detection step is total at its interface: with no model
loaded, with openWakeWord unavailable, or when decoding/inference raised,
it returns `none` rather than propagating an exception; consequently a
loop run without a loaded model (or without openWakeWord) broadcasts
nothing. -/
theorem detect_total_no_model_no_trigger :
    (∀ (o : Bool) (inf : Option Prediction), detect_wake_word false o inf = none) ∧
    (∀ (m : Bool) (inf : Option Prediction), detect_wake_word m false inf = none) ∧
    (∀ m o : Bool, detect_wake_word m o none = none) ∧
    (∀ (o : Bool) (last : ℚ) (es : List FrameEvent),
      audio_loop false o last es = (last, [])) ∧
    (∀ (m : Bool) (last : ℚ) (es : List FrameEvent),
      audio_loop m false last es = (last, [])) := by
  refine ⟨?_, ?_, ?_, ?_, ?_⟩
  · intro o inf; simp [detect_wake_word]
  · intro m inf; cases m <;> simp [detect_wake_word]
  · exact detect_none
  · intro o last es
    exact audio_loop_no_match false o last es (fun inf t _ => by simp [detect_wake_word])
  · intro m last es
    exact audio_loop_no_match m false last es
      (fun inf t _ => by cases m <;> simp [detect_wake_word])

/-- C5: With the model loaded and an inference result in hand, the
detection step reports a persona exactly when some wake-phrase key is
assigned a confidence strictly above the 0.5 threshold. -/
theorem detect_positive_iff_threshold (p : Prediction) :
    (detect_wake_word true true (some p)).isSome = true ↔
      ∃ q ∈ PERSONAS.zip WAKE_PHRASES,
        confidenceThreshold < predGet p (phraseKey q.2) := by
  have h : detect_wake_word true true (some p)
      = scanPhrases p (PERSONAS.zip WAKE_PHRASES) := rfl
  rw [h, scanPhrases_isSome_iff]

/-- C4: When the detector's mapping matches several labels in one frame,
the persona returned is the first matching one in the fixed
Aries-to-Pisces order: if every phrase before the pivot is at or below
threshold and the pivot is above it, the pivot's persona is selected. -/
theorem tiebreak_first_priority (p : Prediction) (pre post : List (String × String))
    (persona phrase : String)
    (hsplit : PERSONAS.zip WAKE_PHRASES = pre ++ (persona, phrase) :: post)
    (hpos : confidenceThreshold < predGet p (phraseKey phrase))
    (hpre : ∀ q ∈ pre, predGet p (phraseKey q.2) ≤ confidenceThreshold) :
    detect_wake_word true true (some p) = some persona := by
  have h : detect_wake_word true true (some p)
      = scanPhrases p (PERSONAS.zip WAKE_PHRASES) := rfl
  rw [h, hsplit]
  exact scanPhrases_first_match p pre post (persona, phrase) hpre hpos

/-- Witness for C4: both Gemini and Leo are above threshold in the same
frame; Gemini, earlier in the fixed order, is selected. -/
theorem tiebreak_first_priority_witness :
    PERSONAS.zip WAKE_PHRASES
      = [("Aries", "Hey Aries"), ("Taurus", "Hey Taurus")]
        ++ ("Gemini", "Hey Gemini")
          :: [("Cancer", "Hey Cancer"), ("Leo", "Hey Leo"), ("Virgo", "Hey Virgo"),
              ("Libra", "Hey Libra"), ("Scorpio", "Hey Scorpio"),
              ("Sagittarius", "Hey Sagittarius"), ("Capricorn", "Hey Capricorn"),
              ("Aquarius", "Hey Aquarius"), ("Pisces", "Hey Pisces")] ∧
    confidenceThreshold
      < predGet [("hey_gemini", (0.9:ℚ)), ("hey_leo", (0.8:ℚ))] (phraseKey "Hey Gemini") ∧
    (∀ q ∈ [("Aries", "Hey Aries"), ("Taurus", "Hey Taurus")],
      predGet [("hey_gemini", (0.9:ℚ)), ("hey_leo", (0.8:ℚ))] (phraseKey q.2)
        ≤ confidenceThreshold) ∧
    detect_wake_word true true (some [("hey_gemini", (0.9:ℚ)), ("hey_leo", (0.8:ℚ))])
      = some "Gemini" := by
  have hsplit : PERSONAS.zip WAKE_PHRASES
      = [("Aries", "Hey Aries"), ("Taurus", "Hey Taurus")]
        ++ ("Gemini", "Hey Gemini")
          :: [("Cancer", "Hey Cancer"), ("Leo", "Hey Leo"), ("Virgo", "Hey Virgo"),
              ("Libra", "Hey Libra"), ("Scorpio", "Hey Scorpio"),
              ("Sagittarius", "Hey Sagittarius"), ("Capricorn", "Hey Capricorn"),
              ("Aquarius", "Hey Aquarius"), ("Pisces", "Hey Pisces")] := rfl
  have hpos : confidenceThreshold
      < predGet [("hey_gemini", (0.9:ℚ)), ("hey_leo", (0.8:ℚ))] (phraseKey "Hey Gemini") := by
    norm_num [predGet, phraseKey_Gemini, confidenceThreshold]
  have hpre : ∀ q ∈ [("Aries", "Hey Aries"), ("Taurus", "Hey Taurus")],
      predGet [("hey_gemini", (0.9:ℚ)), ("hey_leo", (0.8:ℚ))] (phraseKey q.2)
        ≤ confidenceThreshold := by
    intro q hq
    fin_cases hq <;>
      · simp [predGet, phraseKey_Aries, phraseKey_Taurus, confidenceThreshold]
        norm_num
  exact ⟨hsplit, hpos, hpre,
    tiebreak_first_priority _ _ _ "Gemini" "Hey Gemini" hsplit hpos hpre⟩

/-- C7: The registry holds only open connections: a disconnect removes
the connection; a send failure during a fan-out removes it in that same
call; every fan-out attempts exactly the currently registered
connections (one attempt each, no retry); an unregistered connection is
never sent to; and after a disconnect the next fan-out makes no send
attempt to the disconnected client. -/
theorem registry_open_connections (clients : List ℕ) (c : ℕ)
    (send : ℕ → TextSendOutcome) :
    c ∉ (registryStep clients (RegistryEvent.disconnect c)).1 ∧
    (send c = .connectionClosed →
      c ∉ (registryStep clients (RegistryEvent.fanout send)).1) ∧
    (registryStep clients (RegistryEvent.fanout send)).2 = clients ∧
    (c ∉ clients → c ∉ (registryStep clients (RegistryEvent.fanout send)).2) ∧
    c ∉ (registryStep (registryStep clients (RegistryEvent.disconnect c)).1
          (RegistryEvent.fanout send)).2 := by
  refine ⟨?_, ?_, ?_, ?_, ?_⟩
  · simp [registryStep, List.mem_filter]
  · intro h
    simp [registryStep, broadcast_registryAfter, List.mem_filter, h]
  · simp [registryStep, broadcast_attempts]
  · intro h
    simpa [registryStep, broadcast_attempts] using h
  · simp [registryStep, broadcast_attempts, List.mem_filter]

/-- Witness for C7 at a two-client registry. -/
theorem registry_open_connections_witness :
    2 ∉ (WakeService.registryStep [1, 2] (RegistryEvent.disconnect 2)).1 ∧
    (WakeService.registryStep [1, 2]
      (RegistryEvent.fanout (fun _ => TextSendOutcome.ok))).2 = [1, 2] ∧
    2 ∉ (WakeService.registryStep
          (WakeService.registryStep [1, 2] (RegistryEvent.disconnect 2)).1
          (RegistryEvent.fanout (fun _ => TextSendOutcome.ok))).2 := by
  have h := registry_open_connections [1, 2] 2 (fun _ => TextSendOutcome.ok)
  exact ⟨h.1, h.2.2.1, h.2.2.2.2⟩

end WakeService

namespace HubertLlama

/-- C8: A malformed inbound text (not valid JSON) is answered with the
explicit error reply with error text Invalid JSON, and the connection stays open:
every message before and after it is processed exactly as without it. -/
theorem malformed_json_error_reply (env : Env) (raw : String)
    (pre post : List InMsg) :
    handle_client env (pre ++ InMsg.malformed raw :: post) =
      handle_client env pre ++ Reply.errorReply "Invalid JSON" :: handle_client env post := by
  simp [handle_client, handle_message]

end HubertLlama
